import Mathlib

/-!
# UrlContentProvider — verification of the fetch-pipeline core

Shallow embedding, in Lean 4, of the parts of the UrlContentProvider
repository (a NestJS control plane plus a Puppeteer worker) that the
specification's testable properties talk about:

* `HttpErrorHandler` (`src/scraper/src/utils/http-error-handler.ts`):
  the pure error classifier;
* `ScraperService.createFailure` (worker): construction of `ScrapeFailure`
  messages, including the worker-side `canRetry` cap;
* `UrlContentService.submitUrls` / `handleScrapeStarted` /
  `handleScrapeResult` / `handleScrapeFailure` (control plane): the
  per-record state updates;
* `UrlFetchRequestRepository.update`: Mongoose `findByIdAndUpdate` with a
  partial update object;
* `UrlNormalizer` (`src/api/src/utils/url-normalizer.util.ts`): URL
  canonicalization on top of the WHATWG `URL` parser.

Modelling conventions:

* JavaScript strings are modelled by Lean `String` (for messages and
  record fields) and by `List Char` (for the URL normalizer, where the
  proofs need structural recursion).  All inputs of interest are ASCII.
* JavaScript `undefined` vs `null` vs a value, as they appear in a
  Mongoose update payload, are modelled by `Upd α := Option (Option α)`:
  `none` is an absent or `undefined` key, `some none` is `null`,
  `some (some a)` is a value.  Mongoose (v6+) strips keys whose value is
  `undefined` from an update, so an `undefined` key leaves the stored
  field unchanged, while `null` is applied and clears the field.
* A thrown JavaScript exception is modelled by `Except String`.
-/

namespace UrlContentProvider

/-! ## JavaScript value helpers -/

/-- A JavaScript value that can sit in the loosely-typed `error.code` /
`error.status` fields: a number or a string. -/
inductive JsVal where
  | vnum (n : Int)
  | vstr (s : String)
deriving DecidableEq, Repr

/-- JavaScript truthiness of an optional value (`undefined`, `0` and `""`
are falsy). -/
def jsTruthy : Option JsVal → Bool
  | none => false
  | some (JsVal.vnum n) => n != 0
  | some (JsVal.vstr s) => s != ""

/-- JavaScript `a || b` on optional values: `b` when `a` is falsy. -/
def jsOr (a b : Option JsVal) : Option JsVal :=
  if jsTruthy a then a else b

/-- JavaScript `s || dflt` for an optional string (`undefined` and `""`
are falsy). -/
def jsOrStr (s : Option String) (dflt : String) : String :=
  match s with
  | none => dflt
  | some t => if t = "" then dflt else t

/-- Helper: is `needle` a contiguous sublist of `hay`? -/
def listInfix (needle : List Char) : List Char → Bool
  | [] => needle.isEmpty
  | c :: rest => needle.isPrefixOf (c :: rest) || listInfix needle rest

/-- `a.includes(b)` on JavaScript strings. -/
def strIncludes (hay needle : String) : Bool :=
  listInfix needle.data hay.data

/-- `s.startsWith(p)` on JavaScript strings. -/
def jsStartsWith (s p : String) : Bool :=
  p.data.isPrefixOf s.data

/-! ## Error classifier (`HttpErrorHandler`) -/

/-- The `error` argument of `HttpErrorHandler.handle`: a JavaScript error
object with the optional fields the classifier reads. -/
structure JsError where
  message : Option String := none
  name : Option String := none
  code : Option JsVal := none
  status : Option JsVal := none
deriving DecidableEq, Repr

/-- The classifier's result type (`HttpErrorResult`). -/
structure HttpErrorResult where
  canRetry : Bool
  errorMessage : String
  httpStatus : Option Int := none
  isTemporary : Bool
deriving DecidableEq, Repr

namespace HttpErrorHandler

/-- `HttpErrorHandler.handleHttpStatus`: the `switch` over an HTTP status
code, translated case by case (the enum cases first, then the range
defaults). -/
def handleHttpStatus (status : Int) (message : String) : HttpErrorResult :=
  if status = 200 then
    { canRetry := false, errorMessage := "Success",
      httpStatus := some status, isTemporary := false }
  else if status = 400 ∨ status = 401 ∨ status = 403 ∨ status = 404 then
    { canRetry := false,
      errorMessage := "Client error " ++ toString status ++ ": " ++ message,
      httpStatus := some status, isTemporary := false }
  else if status = 408 ∨ status = 429 then
    { canRetry := true,
      errorMessage := "Rate limited or timeout " ++ toString status ++ ": " ++ message,
      httpStatus := some status, isTemporary := true }
  else if status = 500 ∨ status = 502 ∨ status = 503 ∨ status = 504 then
    { canRetry := true,
      errorMessage := "Server error " ++ toString status ++ ": " ++ message,
      httpStatus := some status, isTemporary := true }
  else if 200 ≤ status ∧ status < 300 then
    { canRetry := false, errorMessage := "Success",
      httpStatus := some status, isTemporary := false }
  else if 400 ≤ status ∧ status < 500 then
    { canRetry := false,
      errorMessage := "Client error " ++ toString status ++ ": " ++ message,
      httpStatus := some status, isTemporary := false }
  else if 500 ≤ status then
    { canRetry := true,
      errorMessage := "Server error " ++ toString status ++ ": " ++ message,
      httpStatus := some status, isTemporary := true }
  else
    { canRetry := false,
      errorMessage := "Unknown status " ++ toString status ++ ": " ++ message,
      httpStatus := some status, isTemporary := false }

/-- `HttpErrorHandler.handleChromeNetworkError`: classification of
`net::ERR_*` messages by substring tests, in source order. -/
def handleChromeNetworkError (errorMessage : String) : HttpErrorResult :=
  if strIncludes errorMessage "ERR_CONNECTION_REFUSED" then
    { canRetry := true, errorMessage := "Connection refused",
      isTemporary := true, httpStatus := some 503 }
  else if strIncludes errorMessage "ERR_CONNECTION_TIMED_OUT"
      ∨ strIncludes errorMessage "ERR_TIMED_OUT" then
    { canRetry := true, errorMessage := "Connection timeout",
      isTemporary := true, httpStatus := some 408 }
  else if strIncludes errorMessage "ERR_NAME_NOT_RESOLVED" then
    { canRetry := false, errorMessage := "DNS resolution failed",
      isTemporary := false, httpStatus := some 404 }
  else if strIncludes errorMessage "ERR_CERT_" then
    { canRetry := false, errorMessage := "SSL certificate error",
      isTemporary := false, httpStatus := some 502 }
  else if strIncludes errorMessage "ERR_NETWORK_CHANGED"
      ∨ strIncludes errorMessage "ERR_INTERNET_DISCONNECTED" then
    { canRetry := true, errorMessage := "Network connectivity issue",
      isTemporary := true, httpStatus := some 503 }
  else
    { canRetry := true,
      errorMessage := "Chrome network error: " ++ errorMessage,
      isTemporary := true, httpStatus := some 503 }

/-- `HttpErrorHandler.handle(error, response?)`.  The `error` argument may
be `null` (`none`); `response` is modelled by its `status()` value.  The
source computes `response?.status() || error?.status || error?.code` and,
when that is a number, evaluates `error.message || 'HTTP error'` — a plain
(non-optional) member access on `error`, which throws a `TypeError` when
`error` is `null`; when it is not a number, the very next step
`error.message?.includes('net::ERR_')` throws the same `TypeError` for a
`null` error.  So a `null` error always throws, on either path, and the
model cases on `error` first.  A throw is modelled as `Except.error`. -/
def handle (error : Option JsError) (responseStatus : Option Int) :
    Except String HttpErrorResult :=
  match error with
  | none =>
    Except.error "TypeError: Cannot read properties of null (reading message)"
  | some e =>
    match jsOr (responseStatus.map JsVal.vnum) (jsOr e.status e.code) with
    | some (JsVal.vnum n) =>
      Except.ok (handleHttpStatus n (jsOrStr e.message "HTTP error"))
    | _ =>
      if (match e.message with
          | some m => strIncludes m "net::ERR_"
          | none => false) then
        Except.ok (handleChromeNetworkError ((e.message).getD ""))
      else if e.name == some "TimeoutError"
          || (match e.message with
              | some m => strIncludes m "timeout"
              | none => false) then
        Except.ok { canRetry := true, errorMessage := "Request timeout",
                    isTemporary := true, httpStatus := some 408 }
      else if e.code = some (JsVal.vstr "ENOTFOUND") then
        Except.ok { canRetry := false,
                    errorMessage := "DNS resolution failed: ENOTFOUND",
                    isTemporary := false }
      else if e.code = some (JsVal.vstr "ECONNREFUSED") then
        Except.ok { canRetry := true,
                    errorMessage := "Connection refused: ECONNREFUSED",
                    isTemporary := true }
      else if e.code = some (JsVal.vstr "ECONNRESET")
          ∨ e.code = some (JsVal.vstr "ETIMEDOUT") then
        Except.ok { canRetry := true,
                    errorMessage :=
                      "Connection error: "
                        ++ (match e.code with
                            | some (JsVal.vstr c) => c
                            | _ => ""),
                    isTemporary := true }
      else
        Except.ok { canRetry := true,
                    errorMessage := jsOrStr e.message "Unknown error",
                    isTemporary := true }

end HttpErrorHandler

/-! ## Data model (`UrlFetchRequest` schema, queue messages) -/

/-- `FetchStatus` enum (`scrape.interface.ts`). -/
inductive FetchStatus where
  | PENDING
  | PROCESSING
  | SUCCESS
  | FAILED
  | ARCHIVED
deriving DecidableEq, Repr

/-- The string value of a `FetchStatus`, as interpolated by `${status}` in
the source's template literals. -/
def FetchStatus.str : FetchStatus → String
  | .PENDING => "PENDING"
  | .PROCESSING => "PROCESSING"
  | .SUCCESS => "SUCCESS"
  | .FAILED => "FAILED"
  | .ARCHIVED => "ARCHIVED"

/-- A stored `UrlFetchRequest` document.  Timestamps are milliseconds
since the epoch (`Int`). -/
structure UrlFetchRequest where
  id : String
  url : String
  status : FetchStatus
  content : Option String := none
  contentType : Option String := none
  httpStatus : Option Int := none
  errorMessage : Option String := none
  finalUrl : Option String := none
  responseTime : Option Int := none
  contentLength : Option Int := none
  contentHash : Option String := none
  userAgent : Option String := none
  redirectChain : List String := []
  retryCount : Nat := 0
  fetchedAt : Option Int := none
  lastScrapedAt : Option Int := none
  createdAt : Option Int := none
deriving DecidableEq, Repr

/-- `ScrapeRequest` message (`scrape.requests` queue). -/
structure ScrapeRequest where
  id : String
  url : String
  retryCount : Option Nat := none
  priority : Option Nat := none
deriving DecidableEq, Repr

/-- `ScrapeStarted` message (`scrape.started` queue). -/
structure ScrapeStarted where
  id : String
  url : String
  startedAt : Int
  userAgent : String
deriving DecidableEq, Repr

/-- `ScrapeResult` message (`scrape.results` queue). -/
structure ScrapeResult where
  id : String
  url : String
  success : Bool
  content : Option String := none
  contentType : Option String := none
  httpStatus : Option Int := none
  errorMessage : Option String := none
  finalUrl : Option String := none
  responseTime : Int
  contentLength : Int
  contentHash : Option String := none
  userAgent : String
  redirectChain : Option (List String) := none
  scrapedAt : Int
deriving DecidableEq, Repr

/-- `ScrapeFailure` message (`scrape.failures` queue). -/
structure ScrapeFailure where
  id : String
  url : String
  errorMessage : String
  retryCount : Nat
  maxRetries : Nat
  canRetry : Bool
  httpStatus : Option Int := none
  failedAt : Int
deriving DecidableEq, Repr

/-! ## Repository update (`UrlFetchRequestRepository.update`) -/

/-- One field of a partial update payload, as Mongoose
`findByIdAndUpdate` interprets it: `none` is an absent **or
`undefined`-valued** key (Mongoose v6+ strips `undefined` values from an
update, so the stored field is left unchanged); `some none` is `null`
(applied, clearing the field); `some (some a)` sets the field to `a`. -/
def Upd (α : Type) : Type := Option (Option α)

instance (α : Type) [DecidableEq α] : DecidableEq (Upd α) := by
  unfold Upd; infer_instance

/-- Apply one update field to one stored field. -/
def applyUpd {α : Type} (u : Upd α) (old : Option α) : Option α :=
  match u with
  | none => old
  | some v => v

/-- A partial update payload for `UrlFetchRequestRepository.update`
(the fields the service's handlers ever pass). -/
structure UpdateData where
  status : Option FetchStatus := none
  content : Upd String := none
  contentType : Upd String := none
  httpStatus : Upd Int := none
  errorMessage : Upd String := none
  finalUrl : Upd String := none
  responseTime : Upd Int := none
  contentLength : Upd Int := none
  contentHash : Upd String := none
  userAgent : Upd String := none
  redirectChain : Option (List String) := none
  retryCount : Option Nat := none
  fetchedAt : Upd Int := none
  lastScrapedAt : Upd Int := none

/-- `UrlFetchRequestRepository.update(id, data)`:
`findByIdAndUpdate(id, data, {new: true})`, i.e. a `$set` of every key
present in `data` (after Mongoose has stripped `undefined`-valued keys). -/
def UrlFetchRequestRepository.update (r : UrlFetchRequest) (d : UpdateData) :
    UrlFetchRequest :=
  { r with
    status := d.status.getD r.status
    content := applyUpd d.content r.content
    contentType := applyUpd d.contentType r.contentType
    httpStatus := applyUpd d.httpStatus r.httpStatus
    errorMessage := applyUpd d.errorMessage r.errorMessage
    finalUrl := applyUpd d.finalUrl r.finalUrl
    responseTime := applyUpd d.responseTime r.responseTime
    contentLength := applyUpd d.contentLength r.contentLength
    contentHash := applyUpd d.contentHash r.contentHash
    userAgent := applyUpd d.userAgent r.userAgent
    redirectChain := d.redirectChain.getD r.redirectChain
    retryCount := d.retryCount.getD r.retryCount
    fetchedAt := applyUpd d.fetchedAt r.fetchedAt
    lastScrapedAt := applyUpd d.lastScrapedAt r.lastScrapedAt }

/-! ## Worker: `ScraperService.createFailure` -/

/-- `ScraperService.createFailure(request, errorMessage, canRetry,
httpStatus?, responseTime?)`.  `this.retryCount` is the worker's
`MAX_RETRIES` (default 3).  Note the cap: the emitted `canRetry` is
`canRetry && (request.retryCount || 0) < this.retryCount`. -/
def ScraperService.createFailure (maxRetries : Nat) (request : ScrapeRequest)
    (errorMessage : String) (canRetry : Bool) (httpStatus : Option Int)
    (failedAt : Int) : ScrapeFailure :=
  { id := request.id
    url := request.url
    errorMessage := errorMessage
    retryCount := request.retryCount.getD 0
    maxRetries := maxRetries
    canRetry := canRetry && decide ((request.retryCount.getD 0) < maxRetries)
    httpStatus := httpStatus
    failedAt := failedAt }

/-! ## Control plane: `UrlContentService` handlers -/

namespace UrlContentService

/-- `handleScrapeStarted`: the update payload
`{status: PROCESSING, userAgent: started.userAgent, errorMessage: undefined}`.
The source writes `errorMessage: undefined` (under a comment saying it
clears previous error messages); `findByIdAndUpdate` strips the
`undefined`-valued key, so the payload carries no `errorMessage` change
(`none`). -/
def handleScrapeStartedData (started : ScrapeStarted) : UpdateData :=
  { status := some FetchStatus.PROCESSING
    userAgent := some (some started.userAgent)
    errorMessage := none }

/-- Record after `handleScrapeStarted`. -/
def handleScrapeStarted (r : UrlFetchRequest) (started : ScrapeStarted) :
    UrlFetchRequest :=
  UrlFetchRequestRepository.update r (handleScrapeStartedData started)

/-- `handleScrapeResult`: the update payload.  The common fields are always
set; on `success` the content fields are set and `errorMessage` is `null`;
otherwise `errorMessage`/`httpStatus` are set and the content fields are
`null`.  Optional message fields passed straight through
(`content: result.content` etc.) are `undefined` when absent, hence
stripped. -/
def handleScrapeResultData (result : ScrapeResult) : UpdateData :=
  let base : UpdateData :=
    { status := some (if result.success then FetchStatus.SUCCESS else FetchStatus.FAILED)
      fetchedAt := some (some result.scrapedAt)
      lastScrapedAt := some (some result.scrapedAt)
      finalUrl := result.finalUrl.map some
      responseTime := some (some result.responseTime)
      contentLength := some (some result.contentLength)
      contentHash := result.contentHash.map some
      userAgent := some (some result.userAgent)
      redirectChain := some (result.redirectChain.getD []) }
  if result.success then
    { base with
      content := result.content.map some
      contentType := result.contentType.map some
      httpStatus := result.httpStatus.map some
      errorMessage := some none }
  else
    { base with
      errorMessage := result.errorMessage.map some
      httpStatus := result.httpStatus.map some
      content := some none
      contentType := some none
      contentHash := some none }

/-- Record after `handleScrapeResult`. -/
def handleScrapeResult (r : UrlFetchRequest) (result : ScrapeResult) :
    UrlFetchRequest :=
  UrlFetchRequestRepository.update r (handleScrapeResultData result)

/-- `handleScrapeFailure`, retry branch taken when
`failure.canRetry && failure.retryCount < maxRetries`: the update payload
(fields passed as `undefined` — `content`, `contentType`, `contentHash`,
`fetchedAt` — are stripped) and the republished `ScrapeRequest`. -/
def handleScrapeFailureData (maxRetries : Nat) (failure : ScrapeFailure) :
    UpdateData × Option ScrapeRequest :=
  if failure.canRetry && decide (failure.retryCount < maxRetries) then
    ({ retryCount := some (failure.retryCount + 1)
       status := some FetchStatus.PENDING
       errorMessage := some (some ("Retry " ++ toString (failure.retryCount + 1)
         ++ "/" ++ toString maxRetries ++ ": " ++ failure.errorMessage))
       content := none
       contentType := none
       contentHash := none
       fetchedAt := none },
     some { id := failure.id
            url := failure.url
            retryCount := some (failure.retryCount + 1)
            priority := some 2 })
  else
    let reason : String :=
      if failure.canRetry then
        "Maximum retries (" ++ toString maxRetries ++ ") exceeded"
      else
        "Error is not retryable"
    ({ status := some FetchStatus.FAILED
       errorMessage := some (some (reason ++ ": " ++ failure.errorMessage))
       httpStatus := failure.httpStatus.map some
       content := none
       contentType := none
       contentHash := none },
     none)

/-- Record after `handleScrapeFailure`, paired with the republished
request (if any). -/
def handleScrapeFailure (maxRetries : Nat) (r : UrlFetchRequest)
    (failure : ScrapeFailure) : UrlFetchRequest × Option ScrapeRequest :=
  let (d, req) := handleScrapeFailureData maxRetries failure
  (UrlFetchRequestRepository.update r d, req)

/-- The record `submitUrls` creates for a fresh canonical URL:
`create({url: canonicalUrl, status: PENDING, retryCount: 0})`. -/
def submitRecord (id canonicalUrl : String) : UrlFetchRequest :=
  { id := id, url := canonicalUrl, status := FetchStatus.PENDING,
    retryCount := 0 }

/-- The `ScrapeRequest` that `submitUrls` publishes for a fresh URL. -/
def submitRequest (id canonicalUrl : String) : ScrapeRequest :=
  { id := id, url := canonicalUrl, retryCount := some 0, priority := some 1 }

end UrlContentService

/-! ## Worker/control-plane composition for the retry-exhaustion scenario -/

/-- One failed worker attempt whose page navigation threw the JavaScript
error `e` (the `catch` path of `ScraperService.scrapeUrl`): classify via
`HttpErrorHandler.handle(error)` and build the `ScrapeFailure` via
`createFailure`.  `none` when the classifier itself throws (it cannot for
a non-null error). -/
def workerThrownFailure (maxW : Nat) (request : ScrapeRequest) (e : JsError)
    (failedAt : Int) : Option ScrapeFailure :=
  match HttpErrorHandler.handle (some e) none with
  | Except.ok h =>
    some (ScraperService.createFailure maxW request h.errorMessage h.canRetry
      h.httpStatus failedAt)
  | Except.error _ => none

/-- Iterate `n` rounds of: the worker fails the outstanding
`ScrapeRequest` with error `e`, the control plane handles the resulting
`ScrapeFailure` (worker `MAX_RETRIES` = `maxW`, control-plane
`MAX_RETRIES` = `maxC`). -/
def exhaustRun (maxW maxC : Nat) (e : JsError) :
    Nat → UrlFetchRequest × Option ScrapeRequest →
    UrlFetchRequest × Option ScrapeRequest
  | 0, st => st
  | n + 1, st =>
    match exhaustRun maxW maxC e n st with
    | (rec, some req) =>
      match workerThrownFailure maxW req e 0 with
      | some f => UrlContentService.handleScrapeFailure maxC rec f
      | none => (rec, none)
    | (rec, none) => (rec, none)

/-! ## A sequence of control-plane record operations (for the retry bound) -/

/-- One record-mutating control-plane operation. -/
inductive ControlOp where
  | opStarted (s : ScrapeStarted)
  | opResult (res : ScrapeResult)
  | opFailure (f : ScrapeFailure)

/-- Apply one control-plane operation to a record. -/
def applyControlOp (maxRetries : Nat) (r : UrlFetchRequest) :
    ControlOp → UrlFetchRequest
  | ControlOp.opStarted s => UrlContentService.handleScrapeStarted r s
  | ControlOp.opResult res => UrlContentService.handleScrapeResult r res
  | ControlOp.opFailure f => (UrlContentService.handleScrapeFailure maxRetries r f).1

/-- Apply a sequence of control-plane operations to a record. -/
def applyControlOps (maxRetries : Nat) (r : UrlFetchRequest)
    (ops : List ControlOp) : UrlFetchRequest :=
  ops.foldl (applyControlOp maxRetries) r

end UrlContentProvider

namespace UrlContentProvider

/-! ## Claims about the classifier -/

/-- C8: for every numeric HTTP status, `handleHttpStatus` follows the
§4.2 table — every 2xx status and every 4xx status other than 408 and 429
is not retryable, 408 and 429 are retryable, every 5xx status is
retryable, and the returned `httpStatus` is the input status unchanged. -/
theorem claim8_http_status_table (n : Int) (m : String) :
    ((200 ≤ n ∧ n < 300) →
      (HttpErrorHandler.handleHttpStatus n m).canRetry = false ∧
      (HttpErrorHandler.handleHttpStatus n m).httpStatus = some n) ∧
    ((400 ≤ n ∧ n < 500 ∧ n ≠ 408 ∧ n ≠ 429) →
      (HttpErrorHandler.handleHttpStatus n m).canRetry = false ∧
      (HttpErrorHandler.handleHttpStatus n m).httpStatus = some n) ∧
    ((n = 408 ∨ n = 429) →
      (HttpErrorHandler.handleHttpStatus n m).canRetry = true ∧
      (HttpErrorHandler.handleHttpStatus n m).httpStatus = some n) ∧
    ((500 ≤ n ∧ n < 600) →
      (HttpErrorHandler.handleHttpStatus n m).canRetry = true ∧
      (HttpErrorHandler.handleHttpStatus n m).httpStatus = some n) := by
  unfold HttpErrorHandler.handleHttpStatus
  refine ⟨fun h => ?_, fun h => ?_, fun h => ?_, fun h => ?_⟩ <;>
    split_ifs <;> simp_all <;> omega

/-- Witness for C8 at status 503. -/
theorem claim8_witness :
    (HttpErrorHandler.handleHttpStatus 503 "boom").canRetry = true ∧
    (HttpErrorHandler.handleHttpStatus 503 "boom").httpStatus = some 503 :=
  (claim8_http_status_table 503 "boom").2.2.2 (by decide)

/-- C7 (refuted; the code is at fault): `HttpErrorHandler.handle` is total
for a non-null error object, but the worker's own call
`HttpErrorHandler.handle(null, response)` for an HTTP response with
status ≥ 400 reads `error.message` on `null` and throws a `TypeError`
instead of returning a result. -/
theorem claim7_handle_throws_for_http_response :
    (∀ (e : JsError) (s : Option Int),
      (HttpErrorHandler.handle (some e) s).isOk = true) ∧
    HttpErrorHandler.handle none (some 404) =
      Except.error "TypeError: Cannot read properties of null (reading message)" ∧
    HttpErrorHandler.handle none (some 503) =
      Except.error "TypeError: Cannot read properties of null (reading message)" := by
  refine ⟨fun e s => ?_, rfl, rfl⟩
  unfold HttpErrorHandler.handle
  split <;> (try split) <;> (try split_ifs) <;> simp_all [Except.isOk, Except.toBool]

/-! ## Claims about the control-plane handlers -/

/-- C4 (refuted; the code is at fault): `handleScrapeStarted` sets
`status=PROCESSING` and the message's `userAgent`, but does **not** clear
a previously stored `errorMessage` (a retry breadcrumb): the update passes
`errorMessage: undefined`, which `findByIdAndUpdate` strips from the
payload, even though the source's own comment says it clears previous
error messages. -/
theorem claim4_started_keeps_previous_error :
    UrlContentService.handleScrapeStarted
      { id := "66f0a1b2c3d4e5f6a7b8c9d0", url := "https://example.com",
        status := FetchStatus.PENDING,
        errorMessage := some "Retry 1/3: Connection refused",
        retryCount := 1 }
      { id := "66f0a1b2c3d4e5f6a7b8c9d0", url := "https://example.com",
        startedAt := 1000, userAgent := "Mozilla/5.0" } =
    { id := "66f0a1b2c3d4e5f6a7b8c9d0", url := "https://example.com",
      status := FetchStatus.PROCESSING,
      errorMessage := some "Retry 1/3: Connection refused",
      userAgent := some "Mozilla/5.0",
      retryCount := 1 } := by
  decide

/-- C5 (refuted in one conjunct; the code is at fault): on a retryable
failure below the cap, the control plane does set `status=PENDING`,
increment `retryCount`, write the `"Retry k/N: ..."` breadcrumb and
republish `ScrapeRequest{id, url, retryCount:k+1, priority:2}`, but it
does **not** clear `content`, `contentType`, `contentHash`, `fetchedAt`:
those keys are passed as `undefined` (under the comment "Clear previous
success data") and are stripped from the update. -/
theorem claim5_retry_branch_keeps_content :
    UrlContentService.handleScrapeFailure 3
      { id := "66f0a1b2c3d4e5f6a7b8c9d0", url := "https://example.com",
        status := FetchStatus.PROCESSING,
        content := some "<html>old</html>", contentType := some "text/html",
        contentHash := some "ab12", fetchedAt := some 500,
        retryCount := 0 }
      { id := "66f0a1b2c3d4e5f6a7b8c9d0", url := "https://example.com",
        errorMessage := "Connection refused", retryCount := 0,
        maxRetries := 3, canRetry := true, httpStatus := some 503,
        failedAt := 2000 } =
    ({ id := "66f0a1b2c3d4e5f6a7b8c9d0", url := "https://example.com",
       status := FetchStatus.PENDING,
       content := some "<html>old</html>", contentType := some "text/html",
       contentHash := some "ab12", fetchedAt := some 500,
       errorMessage := some "Retry 1/3: Connection refused",
       retryCount := 1 },
     some { id := "66f0a1b2c3d4e5f6a7b8c9d0", url := "https://example.com",
            retryCount := some 1, priority := some 2 }) := by
  decide

/-- Helper: `handleScrapeResult`'s update payload never touches
`retryCount`. -/
theorem handleScrapeResultData_retryCount (res : ScrapeResult) :
    (UrlContentService.handleScrapeResultData res).retryCount = none := by
  unfold UrlContentService.handleScrapeResultData
  split <;> rfl

/-- Helper: one control-plane operation preserves `retryCount ≤ max`. -/
theorem applyControlOp_retryCount (max : Nat) (r : UrlFetchRequest)
    (op : ControlOp) (h : r.retryCount ≤ max) :
    (applyControlOp max r op).retryCount ≤ max := by
  cases op with
  | opStarted s =>
    simpa [applyControlOp, UrlContentService.handleScrapeStarted,
      UrlContentService.handleScrapeStartedData,
      UrlFetchRequestRepository.update] using h
  | opResult res =>
    simpa [applyControlOp, UrlContentService.handleScrapeResult,
      UrlFetchRequestRepository.update, handleScrapeResultData_retryCount]
      using h
  | opFailure f =>
    simp only [applyControlOp, UrlContentService.handleScrapeFailure,
      UrlContentService.handleScrapeFailureData]
    split_ifs with hc hb
    · simp only [UrlFetchRequestRepository.update, Option.getD_some]
      have : f.retryCount < max := by
        simp only [Bool.and_eq_true, decide_eq_true_eq] at hc
        exact hc.2
      omega
    · exact h
    · exact h

/-- C6: `submitUrls` creates records with `retryCount = 0`, and any
sequence of control-plane operations (scrape-started, scrape-result,
scrape-failure handling with cap `max`) keeps a record's `retryCount`
at most `max`, because the failure handler only writes
`reported retryCount + 1` when the reported count is strictly below
`max`. -/
theorem claim6_retry_count_invariant (max : Nat) (id c : String)
    (r : UrlFetchRequest) (ops : List ControlOp)
    (h : r.retryCount ≤ max) :
    (UrlContentService.submitRecord id c).retryCount = 0 ∧
    (applyControlOps max r ops).retryCount ≤ max := by
  refine ⟨rfl, ?_⟩
  induction ops generalizing r with
  | nil => exact h
  | cons op rest ih =>
    exact ih (applyControlOp max r op) (applyControlOp_retryCount max r op h)

/-- Witness for C6: a record at the cap, hit by one more reported
failure, stays at the cap. -/
theorem claim6_witness :
    (UrlContentService.submitRecord "66f0a1b2c3d4e5f6a7b8c9d0"
      "https://example.com").retryCount = 0 ∧
    (applyControlOps 3
      { id := "66f0a1b2c3d4e5f6a7b8c9d0", url := "https://example.com",
        status := FetchStatus.PENDING, retryCount := 3 }
      [ControlOp.opFailure
        { id := "66f0a1b2c3d4e5f6a7b8c9d0", url := "https://example.com",
          errorMessage := "Server error 503: boom", retryCount := 3,
          maxRetries := 3, canRetry := false, httpStatus := some 503,
          failedAt := 0 }]).retryCount ≤ 3 :=
  claim6_retry_count_invariant 3 "66f0a1b2c3d4e5f6a7b8c9d0"
    "https://example.com" _ _ (by decide)

/-! ## Claim C1: terminal failure message and retry exhaustion -/

/-- The JavaScript error a refused connection raises in the worker. -/
def connRefusedErr : JsError :=
  { message := some "net::ERR_CONNECTION_REFUSED at https://flaky.example" }

/-- Final state after four consecutive connection-refused attempts for one
submitted URL, with `MAX_RETRIES = 3` on both the worker and the control
plane. -/
def exhaustFinal : UrlFetchRequest × Option ScrapeRequest :=
  exhaustRun 3 3 connRefusedErr 4
    (UrlContentService.submitRecord "66f0a1b2c3d4e5f6a7b8c9d0"
       "https://flaky.example",
     some (UrlContentService.submitRequest "66f0a1b2c3d4e5f6a7b8c9d0"
       "https://flaky.example"))

/-- C1 counterexample: after `MAX_RETRIES + 1 = 4` consecutive retryable
failures the record ends `status=FAILED, retryCount=3`, but its
`errorMessage` is `"Error is not retryable: ..."`, not one beginning
`"Maximum retries (3) exceeded"`: the worker's `createFailure` caps
`canRetry` by `retryCount < MAX_RETRIES`, so the final `ScrapeFailure`
reaches the control plane with `canRetry=false`. -/
theorem claim1_counterexample :
    exhaustFinal.1.status = FetchStatus.FAILED ∧
    exhaustFinal.1.retryCount = 3 ∧
    exhaustFinal.1.errorMessage =
      some "Error is not retryable: Connection refused" ∧
    jsStartsWith "Error is not retryable: Connection refused"
      "Maximum retries (3) exceeded" = false ∧
    exhaustFinal.2 = none := by
  decide

/-- C1 (amended): when `handleScrapeFailure` does not retry, it updates
the record to `status=FAILED` with
`errorMessage = "<reason>: <original>"`, where `reason` is
`"Maximum retries (N) exceeded"` if the incoming failure is marked
retryable and `"Error is not retryable"` otherwise, and republishes
nothing; and for `MAX_RETRIES+1` consecutive retryable failures (worker
and control plane sharing `MAX_RETRIES = 3`) the record ends
`status=FAILED, retryCount=3` with `errorMessage` beginning
`"Error is not retryable"`, because the worker clears `canRetry` on the
final attempt. -/
theorem claim1_terminal_failure_message (max : Nat) (r : UrlFetchRequest)
    (f : ScrapeFailure) (h : ¬(f.canRetry = true ∧ f.retryCount < max)) :
    ((UrlContentService.handleScrapeFailure max r f).1.status = FetchStatus.FAILED ∧
     (UrlContentService.handleScrapeFailure max r f).1.errorMessage =
       some ((if f.canRetry then
                "Maximum retries (" ++ toString max ++ ") exceeded"
              else "Error is not retryable") ++ ": " ++ f.errorMessage) ∧
     (UrlContentService.handleScrapeFailure max r f).2 = none) ∧
    (exhaustFinal.1.status = FetchStatus.FAILED ∧
     exhaustFinal.1.retryCount = 3 ∧
     jsStartsWith "Error is not retryable: Connection refused"
       "Error is not retryable" = true ∧
     exhaustFinal.1.errorMessage =
       some "Error is not retryable: Connection refused") := by
  have hc : (f.canRetry && decide (f.retryCount < max)) = false := by
    cases hb : f.canRetry with
    | false => simp
    | true =>
      have hge : ¬ f.retryCount < max := fun hlt => h ⟨hb, hlt⟩
      simp [hge]
  refine ⟨?_, by decide⟩
  simp [UrlContentService.handleScrapeFailure,
    UrlContentService.handleScrapeFailureData, hc,
    UrlFetchRequestRepository.update, applyUpd]

/-- Witness for C1's amended theorem at a concrete non-retryable
failure. -/
theorem claim1_witness :
    (UrlContentService.handleScrapeFailure 3
      { id := "66f0a1b2c3d4e5f6a7b8c9d0", url := "https://example.com",
        status := FetchStatus.PROCESSING, retryCount := 0 }
      { id := "66f0a1b2c3d4e5f6a7b8c9d0", url := "https://example.com",
        errorMessage := "DNS resolution failed", retryCount := 0,
        maxRetries := 3, canRetry := false, httpStatus := some 404,
        failedAt := 0 }).1.status = FetchStatus.FAILED :=
  (claim1_terminal_failure_message 3 _ _ (by decide)).1.1

/-! ## URL normalizer (`UrlNormalizer`)

URLs are modelled as `List Char` (JavaScript strings; all inputs of
interest are ASCII).  `new URL(...)` is modelled by a WHATWG-style parser
for `http(s)://` URLs covering scheme/userinfo/host/port/path/query/
fragment splitting, host lowercasing and validation, and default-port
elision.  Idealizations (documented here once): percent-encoding,
dot-segment resolution, IDNA/punycode (hosts are ASCII-only; non-ASCII
and `%` count as invalid host characters), IPv4/IPv6 host forms, and
WHATWG's stripping of embedded tab/CR/LF are not modelled; the concrete
URLs below use none of these features. -/

namespace UrlNormalizer

/-- ASCII whitespace stripped by JavaScript `String.prototype.trim`. -/
def isJsSpace (c : Char) : Bool :=
  c = ' ' || c = '\t' || c = '\n' || c = '\r' || c = '\x0b' || c = '\x0c'

/-- `s.trim()`. -/
def trim (s : List Char) : List Char :=
  ((s.dropWhile isJsSpace).reverse.dropWhile isJsSpace).reverse

def httpsPrefix : List Char := "https://".data

def httpPrefix : List Char := "http://".data

/-- `workingUrl.match(/^https?:\/\//)` — a **case-sensitive** scheme
test. -/
def hasSchemePrefix (s : List Char) : Bool :=
  httpsPrefix.isPrefixOf s || httpPrefix.isPrefixOf s

/-- `s.replace(/^https?:\/\//, '')`: strip one leading lowercase
scheme. -/
def stripScheme (s : List Char) : List Char :=
  if httpsPrefix.isPrefixOf s then s.drop 8
  else if httpPrefix.isPrefixOf s then s.drop 7
  else s

/-- Characters terminating the authority of a URL (and exactly the
character class `[\/\?\#]` of the fallback's host regex). -/
def isAuthorityEnd (c : Char) : Bool :=
  c = '/' || c = '?' || c = '#'

/-- Characters terminating the path. -/
def isPathEnd (c : Char) : Bool :=
  c = '?' || c = '#'

/-- Characters the WHATWG parser rejects inside a (special-scheme) host:
forbidden domain code points, plus everything non-ASCII (IDNA is not
modelled). -/
def isForbiddenHost (c : Char) : Bool :=
  c.toNat < 33 || c.toNat = 127 || 127 < c.toNat ||
  c = '#' || c = '%' || c = '/' || c = ':' || c = '<' || c = '>' ||
  c = '?' || c = '@' || c = '[' || c = '\\' || c = ']' || c = '^' || c = '|'

/-- Line terminators, which `(.*)` in a JavaScript regex does not
match. -/
def isJsLineTerm (c : Char) : Bool :=
  c = '\n' || c = '\r' || c.toNat = 8232 || c.toNat = 8233

/-- The part of the authority after its last `@` (userinfo is dropped by
the WHATWG parser before host parsing). -/
def afterLastAt (xs : List Char) : List Char :=
  if xs.contains '@' then (xs.reverse.takeWhile (fun c => c ≠ '@')).reverse
  else xs

/-- Numeric value of a digit string. -/
def decimalValue (ds : List Char) : Nat :=
  ds.foldl (fun a c => a * 10 + (c.toNat - 48)) 0

/-- The components `new URL` exposes for an `http(s)` URL: `protocol`
(`https:` iff `https`), `hostname` (lowercased), `port` (absent when no
or default port), `pathname` (at least `/`), `search` (empty or
`?`-leading), `hash` (empty or `#`-leading). -/
structure URLRec where
  https : Bool
  host : List Char
  port : Option Nat
  path : List Char
  search : List Char
  hash : List Char
deriving DecidableEq, Repr

/-- Parse the part after `http://` or `https://`. -/
def parseAfterScheme (https : Bool) (rest : List Char) : Option URLRec :=
  let authority := rest.takeWhile (fun c => !isAuthorityEnd c)
  let afterAuth := rest.drop authority.length
  let hostport := afterLastAt authority
  let hostRaw := hostport.takeWhile (fun c => c ≠ ':')
  let portPart := hostport.drop (hostRaw.length + 1)
  if hostRaw = [] then none
  else if hostRaw.any isForbiddenHost then none
  else if portPart.all Char.isDigit then
    let v := decimalValue portPart
    if 65535 < v then none
    else
      let defaultPort : Nat := if https then 443 else 80
      let path := afterAuth.takeWhile (fun c => !isPathEnd c)
      let afterPath := afterAuth.drop path.length
      let search := afterPath.takeWhile (fun c => c ≠ '#')
      let hash := afterPath.drop search.length
      some { https := https
             host := hostRaw.map Char.toLower
             port := if portPart = [] then none
                     else if v = defaultPort then none else some v
             path := if path = [] then ['/'] else path
             search := if search = ['?'] then [] else search
             hash := if hash = ['#'] then [] else hash }
  else none

/-- `new URL(s)` for a string starting with `http://` or `https://`
(`normalize` only ever parses such strings); `none` models a thrown
`Invalid URL` error. -/
def parse (s : List Char) : Option URLRec :=
  if httpsPrefix.isPrefixOf s then parseAfterScheme true (s.drop 8)
  else if httpPrefix.isPrefixOf s then parseAfterScheme false (s.drop 7)
  else none

/-- Strip a single leading `www.` (the host is already lowercase where
this is applied). -/
def stripWww (h : List Char) : List Char :=
  if "www.".data.isPrefixOf h then h.drop 4 else h

/-- Decimal digits of a `Nat`, by fuel (the fuel `n + 1` always
suffices). -/
def natDigitsAux : Nat → Nat → List Char
  | 0, _ => []
  | fuel + 1, n =>
    if n < 10 then [Char.ofNat (48 + n)]
    else natDigitsAux fuel (n / 10) ++ [Char.ofNat (48 + n % 10)]

/-- Decimal representation of a `Nat` (as `urlObj.port` serializes). -/
def natDigits (n : Nat) : List Char :=
  natDigitsAux (n + 1) n

/-- `urlObj.port ? ":" + urlObj.port : ""`. -/
def serializePort : Option Nat → List Char
  | none => []
  | some p => ':' :: natDigits p

/-- The source's pathname adjustment: drop the root path entirely, and
drop one trailing slash from a longer path. -/
def adjustPath (p : List Char) : List Char :=
  if p = ['/'] then []
  else if p.getLast? == some '/' && decide (1 < p.length) then p.dropLast
  else p

/-- The source's scheme defaulting:
`if (!workingUrl.match(...)) workingUrl = "https://" + workingUrl`. -/
def withDefaultScheme (s : List Char) : List Char :=
  if hasSchemePrefix s then s else httpsPrefix ++ s

/-- `UrlNormalizer.normalize`: trim, default the scheme, parse; on
success rebuild from the lowercased `www`-stripped host, port, adjusted
path, search and hash, and strip the scheme; on parse failure fall back
to stripping the scheme and lowercasing/`www`-stripping the host part
(the regex `^([^\/\?\#]+)(.*)`, whose second group stops at a line
terminator). -/
def normalize (url : List Char) : List Char :=
  match parse (withDefaultScheme (trim url)) with
  | some u =>
    let hostname := stripWww (u.host.map Char.toLower)
    let protocol := if u.https then "https:".data else "http:".data
    stripScheme (protocol ++ "//".data ++ hostname ++ serializePort u.port
      ++ adjustPath u.path ++ u.search ++ u.hash)
  | none =>
    let fallback := stripScheme (trim url)
    match fallback with
    | [] => fallback
    | c :: _ =>
      if isAuthorityEnd c then fallback
      else
        let hostPart := fallback.takeWhile (fun c => !isAuthorityEnd c)
        let restPart :=
          (fallback.drop hostPart.length).takeWhile (fun c => !isJsLineTerm c)
        stripWww (hostPart.map Char.toLower) ++ restPart

/-- `UrlNormalizer.getCanonicalUrl`. -/
def getCanonicalUrl (url : List Char) : List Char :=
  httpsPrefix ++ normalize url

/-- `UrlNormalizer.areEquivalent`. -/
def areEquivalent (a b : List Char) : Bool :=
  normalize a == normalize b

/-- `normalize` on Lean `String`s. -/
def normalizeS (s : String) : String :=
  ⟨normalize s.data⟩

/-- `getCanonicalUrl` on Lean `String`s. -/
def getCanonicalUrlS (s : String) : String :=
  ⟨getCanonicalUrl s.data⟩

/-- `areEquivalent` on Lean `String`s. -/
def areEquivalentS (a b : String) : Bool :=
  areEquivalent a.data b.data

end UrlNormalizer

example : UrlNormalizer.normalize "ynet.co.il".data = "ynet.co.il".data := by decide

example : UrlNormalizer.normalize "https://www.ynet.co.il/".data = "ynet.co.il".data := by decide

example : UrlNormalizer.normalize "HTTP://ynet.co.il".data = "http//ynet.co.il".data := by decide

example : UrlNormalizer.normalize "www.www.example.com".data = "www.example.com".data := by decide

example : UrlNormalizer.normalize "https://x.com/a//".data = "x.com/a/".data := by decide

example : UrlNormalizer.normalize "https://Example.com:0443/Foo?A=B#Z".data = "example.com/Foo?A=B#Z".data := by decide

example : UrlNormalizer.normalize "https://user@x.com:8080/".data = "x.com:8080".data := by decide

example : UrlNormalizer.normalize "http://%%".data = "%%".data := by decide

example : UrlNormalizer.normalize "".data = "".data := by decide

/-! ## Claims C2 and C10: canonicalization -/

/-- C2 counterexample: `canonical("HTTP://ynet.co.il")` differs from
`canonical("ynet.co.il")` — the scheme regex `/^https?:\/\//` is
case-sensitive, so the uppercase scheme is not recognized, `https://` is
prepended, and the WHATWG parser reads `HTTP:` as a host `http` with an
empty port, giving `https://http//ynet.co.il`. -/
theorem claim2_counterexample :
    UrlNormalizer.getCanonicalUrl "HTTP://ynet.co.il".data ≠
      UrlNormalizer.getCanonicalUrl "ynet.co.il".data := by
  decide

/-- C2 (amended): `canonical("ynet.co.il") =
canonical("https://www.ynet.co.il/") = "https://ynet.co.il"` (missing
scheme defaulted, `www.` stripped, root slash dropped), and the
lowercase-scheme form `"http://ynet.co.il"` is also equivalent; but
`canonical("HTTP://ynet.co.il") = "https://http//ynet.co.il"`, because
the scheme test is case-sensitive. -/
theorem claim2_equivalence_classes :
    UrlNormalizer.getCanonicalUrl "ynet.co.il".data =
      UrlNormalizer.getCanonicalUrl "https://www.ynet.co.il/".data ∧
    UrlNormalizer.getCanonicalUrl "ynet.co.il".data =
      "https://ynet.co.il".data ∧
    UrlNormalizer.getCanonicalUrl "http://ynet.co.il".data =
      "https://ynet.co.il".data ∧
    UrlNormalizer.getCanonicalUrl "HTTP://ynet.co.il".data =
      "https://http//ynet.co.il".data := by
  decide

/-- C10: `getCanonicalUrl` is total (a Lean function on all of
`List Char`, with the parse-failure branch modelled by the source's
`catch` fallback) and always returns `"https://" ++ normalize u`, hence a
string starting with `"https://"` — also on an input whose host the URL
parser rejects, such as `"http://%%"`. -/
theorem claim10_canonical_total_and_https (u : List Char) :
    UrlNormalizer.getCanonicalUrl u =
      UrlNormalizer.httpsPrefix ++ UrlNormalizer.normalize u ∧
    UrlNormalizer.httpsPrefix.isPrefixOf (UrlNormalizer.getCanonicalUrl u)
      = true ∧
    UrlNormalizer.getCanonicalUrl "http://%%".data = "https://%%".data := by
  refine ⟨rfl, ?_, by decide⟩
  rw [List.isPrefixOf_iff_prefix]
  exact List.prefix_append _ _

/-! ## Claim C9: submission skip reasons -/

/-- One entry of the `skipped` array of `submitUrls`' response. -/
structure SkippedUrl where
  url : String
  reason : String
  lastScrapedAt : Option Int := none
  nextAvailableAt : Option Int := none
deriving DecidableEq, Repr

namespace UrlContentService

/-- The `skipped` entry `submitUrls` builds when `getRecentByUrl`
returned the record `r` for the submitted URL `url`
(`scrapeInterval` = `SCRAPE_INTERVAL_MINUTES`).  A JavaScript `Date` is
always truthy, so the `recentRequest.fetchedAt` guard is `isSome`, and
`fetchedAt || createdAt` is `Option.orElse`. -/
def skipEntry (scrapeInterval : Int) (url : String) (r : UrlFetchRequest) :
    SkippedUrl :=
  let canonicalUrl := UrlNormalizer.getCanonicalUrlS url
  let lastScrapedAt := match r.fetchedAt with
    | some t => some t
    | none => r.createdAt
  if r.status = FetchStatus.SUCCESS ∧ r.fetchedAt.isSome then
    { url := url
      reason :=
        if r.url = canonicalUrl ∨ UrlNormalizer.areEquivalentS r.url url = true
        then "Successfully scraped within " ++ toString scrapeInterval
          ++ " minutes"
        else "Already scraped via redirect (" ++ r.url
          ++ " → redirects to this URL)"
      lastScrapedAt := lastScrapedAt
      nextAvailableAt :=
        r.fetchedAt.map (fun t => t + scrapeInterval * 60 * 1000) }
  else if r.status = FetchStatus.PENDING ∨ r.status = FetchStatus.PROCESSING then
    { url := url
      reason := "Already queued for scraping (status: " ++ r.status.str ++ ")"
      lastScrapedAt := lastScrapedAt }
  else
    { url := url
      reason := "Recent request exists with status: " ++ r.status.str
      lastScrapedAt := lastScrapedAt }

end UrlContentService

/-- C9 counterexample: in the spec's redirect-dedup scenario the stored
record has the canonical URL `https://ynet.co.il`; resubmitting
`"www.ynet.co.il"` canonicalizes to the same URL (the `www.` is
stripped), so the reason is `"Successfully scraped within 60 minutes"`,
not `"Already scraped via redirect"`; and when the redirect branch *is*
taken, the reason carries a parenthetical suffix, so it is never the bare
string `"Already scraped via redirect"`. -/
theorem claim9_counterexample :
    (UrlContentService.skipEntry 60 "www.ynet.co.il"
      { id := "66f0a1b2c3d4e5f6a7b8c9d0", url := "https://ynet.co.il",
        status := FetchStatus.SUCCESS, fetchedAt := some 1700000000000,
        finalUrl := some "https://www.ynet.co.il/",
        redirectChain := ["https://ynet.co.il", "https://www.ynet.co.il"] }).reason =
      "Successfully scraped within 60 minutes" ∧
    (UrlContentService.skipEntry 60 "www.ynet.co.il"
      { id := "66f0a1b2c3d4e5f6a7b8c9d0", url := "https://ynet.co.il",
        status := FetchStatus.SUCCESS, fetchedAt := some 1700000000000,
        finalUrl := some "https://www.ynet.co.il/",
        redirectChain := ["https://ynet.co.il", "https://www.ynet.co.il"] }).reason ≠
      "Already scraped via redirect" ∧
    (UrlContentService.skipEntry 60 "https://reader.example"
      { id := "66f0a1b2c3d4e5f6a7b8c9d1", url := "https://short.ly/abc",
        status := FetchStatus.SUCCESS, fetchedAt := some 1700000000000,
        redirectChain := ["https://reader.example"] }).reason =
      "Already scraped via redirect (https://short.ly/abc → redirects to this URL)" ∧
    (UrlContentService.skipEntry 60 "https://reader.example"
      { id := "66f0a1b2c3d4e5f6a7b8c9d1", url := "https://short.ly/abc",
        status := FetchStatus.SUCCESS, fetchedAt := some 1700000000000,
        redirectChain := ["https://reader.example"] }).reason ≠
      "Already scraped via redirect" := by
  decide

/-- C9 (amended): when the recent record `r` has `status=SUCCESS` and a
`fetchedAt`, the skip reason is `"Successfully scraped within N minutes"`
if `r.url` equals the submission's canonical form or is
normalization-equivalent to it, and otherwise
`"Already scraped via redirect (<r.url> → redirects to this URL)"`
(the bare spec string plus a parenthetical suffix); `nextAvailableAt` is
`r.fetchedAt` plus the dedup window. -/
theorem claim9_skip_reason (N : Int) (u : String) (r : UrlFetchRequest)
    (t : Int) (h1 : r.status = FetchStatus.SUCCESS)
    (h2 : r.fetchedAt = some t) :
    ((r.url = UrlNormalizer.getCanonicalUrlS u ∨
        UrlNormalizer.areEquivalentS r.url u = true) →
      (UrlContentService.skipEntry N u r).reason =
        "Successfully scraped within " ++ toString N ++ " minutes") ∧
    (¬(r.url = UrlNormalizer.getCanonicalUrlS u ∨
        UrlNormalizer.areEquivalentS r.url u = true) →
      (UrlContentService.skipEntry N u r).reason =
        "Already scraped via redirect (" ++ r.url
          ++ " → redirects to this URL)") ∧
    (UrlContentService.skipEntry N u r).nextAvailableAt =
      some (t + N * 60 * 1000) := by
  unfold UrlContentService.skipEntry
  simp only [h1, h2, Option.isSome_some, and_self, if_true, true_and]
  refine ⟨fun hyp => ?_, fun hyp => ?_, ?_⟩ <;>
    simp_all [Option.map]

/-! ## Infrastructure for claim C3 (idempotence of canonicalization) -/

namespace UrlNormalizer

theorem char_eq_iff_toNat {c d : Char} : c = d ↔ c.toNat = d.toNat := by
  constructor
  · intro h; rw [h]
  · intro h
    apply Char.eq_of_val_eq
    apply UInt32.eq_of_toBitVec_eq
    exact BitVec.toNat_eq.mpr h

theorem toNat_char_ofNat {n : Nat} (h : n < 55296) :
    (Char.ofNat n).toNat = n := by
  rw [Char.ofNat, dif_pos (Or.inl h)]
  simp [Char.ofNatAux, Char.toNat, UInt32.toNat, BitVec.toNat_ofNatLt]

theorem toNat_toLower (c : Char) :
    (Char.toLower c).toNat =
      if 65 ≤ c.toNat ∧ c.toNat ≤ 90 then c.toNat + 32 else c.toNat := by
  show (if c.toNat ≥ 65 ∧ c.toNat ≤ 90 then Char.ofNat (c.toNat + 32)
    else c).toNat = _
  split_ifs with h1
  · exact toNat_char_ofNat (by omega)
  · rfl

theorem toLower_idem (c : Char) :
    Char.toLower (Char.toLower c) = Char.toLower c := by
  rw [char_eq_iff_toNat, toNat_toLower, toNat_toLower]
  split_ifs <;> omega

theorem isDigit_iff_toNat {c : Char} :
    c.isDigit = true ↔ 48 ≤ c.toNat ∧ c.toNat ≤ 57 := by
  simp only [Char.isDigit, Bool.and_eq_true, decide_eq_true_eq]
  show (48 : UInt32) ≤ c.val ∧ c.val ≤ 57 ↔ _
  rw [UInt32.le_def, UInt32.le_def]
  constructor
  · intro ⟨h1, h2⟩
    exact ⟨BitVec.le_def.mp h1, BitVec.le_def.mp h2⟩
  · intro ⟨h1, h2⟩
    exact ⟨BitVec.le_def.mpr h1, BitVec.le_def.mpr h2⟩

/-- If `c.toNat` differs from `d.toNat`, then `c ≠ d`. -/
theorem char_ne_of_toNat_lt {c : Char} {lo hi : Nat}
    (hlo : lo ≤ c.toNat) (hhi : c.toNat ≤ hi) :
    ∀ d : Char, d.toNat < lo ∨ hi < d.toNat → ¬ c = d := by
  intro d hd hc
  rw [char_eq_iff_toNat] at hc
  omega

/-- A digit is not an authority/path delimiter, `:`, `@`, `#`, or
whitespace. -/
theorem isDigit_not_special {c : Char} (h : c.isDigit = true) :
    isAuthorityEnd c = false ∧ isPathEnd c = false ∧ ¬ c = ':' ∧
    ¬ c = '@' ∧ ¬ c = '#' ∧ isJsSpace c = false := by
  obtain ⟨h1, h2⟩ := isDigit_iff_toNat.mp h
  have key := char_ne_of_toNat_lt h1 h2
  refine ⟨?_, ?_, key ':' (by decide), key '@' (by decide),
    key '#' (by decide), ?_⟩
  · simp only [isAuthorityEnd, Bool.or_eq_false_iff,
      decide_eq_false_iff_not, and_assoc]
    exact ⟨key '/' (by decide), key '?' (by decide), key '#' (by decide)⟩
  · simp only [isPathEnd, Bool.or_eq_false_iff, decide_eq_false_iff_not,
      and_assoc]
    exact ⟨key '?' (by decide), key '#' (by decide)⟩
  · simp only [isJsSpace, Bool.or_eq_false_iff, decide_eq_false_iff_not,
      and_assoc]
    exact ⟨key ' ' (by decide), key '\t' (by decide), key '\n' (by decide),
      key '\r' (by decide), key '\x0b' (by decide), key '\x0c' (by decide)⟩

/-- A non-forbidden host character is not an authority/path delimiter,
`:`, `@`, or whitespace. -/
theorem not_forbidden_not_special {c : Char} (h : isForbiddenHost c = false) :
    isAuthorityEnd c = false ∧ isPathEnd c = false ∧ ¬ c = ':' ∧
    ¬ c = '@' ∧ isJsSpace c = false := by
  simp only [isForbiddenHost, Bool.or_eq_false_iff, decide_eq_false_iff_not,
    and_assoc] at h
  obtain ⟨h33, h127a, h127b, hhash, hpct, hslash, hcolon, hlt, hgt, hq,
    hat, hlb, hbs, hrb, hcaret, hbar⟩ := h
  have knospace : ∀ d : Char, d.toNat < 33 → ¬ c = d := by
    intro d hd hc
    rw [char_eq_iff_toNat] at hc
    omega
  refine ⟨?_, ?_, hcolon, hat, ?_⟩
  · simp only [isAuthorityEnd, Bool.or_eq_false_iff,
      decide_eq_false_iff_not, and_assoc]
    exact ⟨hslash, hq, hhash⟩
  · simp only [isPathEnd, Bool.or_eq_false_iff, decide_eq_false_iff_not,
      and_assoc]
    exact ⟨hq, hhash⟩
  · simp only [isJsSpace, Bool.or_eq_false_iff, decide_eq_false_iff_not,
      and_assoc]
    exact ⟨knospace ' ' (by decide), knospace '\t' (by decide),
      knospace '\n' (by decide), knospace '\r' (by decide),
      knospace '\x0b' (by decide), knospace '\x0c' (by decide)⟩

/-- ASCII letters are not forbidden host characters. -/
theorem not_forbidden_of_letter {c : Char}
    (h : 65 ≤ c.toNat ∧ c.toNat ≤ 90 ∨ 97 ≤ c.toNat ∧ c.toNat ≤ 122) :
    isForbiddenHost c = false := by
  have key : ∀ d : Char,
      d.toNat < 65 ∨ 90 < d.toNat ∧ d.toNat < 97 ∨ 122 < d.toNat →
      ¬ c = d := by
    intro d hd hc
    rw [char_eq_iff_toNat] at hc
    omega
  simp only [isForbiddenHost, Bool.or_eq_false_iff, decide_eq_false_iff_not,
    and_assoc]
  exact ⟨by omega, by omega, by omega, key '#' (by decide),
    key '%' (by decide), key '/' (by decide), key ':' (by decide),
    key '<' (by decide), key '>' (by decide), key '?' (by decide),
    key '@' (by decide), key '[' (by decide), key '\\' (by decide),
    key ']' (by decide), key '^' (by decide), key '|' (by decide)⟩

/-- Lowercasing does not change whether a character is a forbidden host
character. -/
theorem isForbiddenHost_toLower (c : Char) :
    isForbiddenHost (Char.toLower c) = isForbiddenHost c := by
  by_cases h : 65 ≤ c.toNat ∧ c.toNat ≤ 90
  · have ht : (Char.toLower c).toNat = c.toNat + 32 := by
      rw [toNat_toLower, if_pos h]
    rw [not_forbidden_of_letter (Or.inr (by omega)),
      not_forbidden_of_letter (Or.inl h)]
  · have hfix : Char.toLower c = c := by
      rw [char_eq_iff_toNat, toNat_toLower, if_neg h]
    rw [hfix]

theorem decimalValue_append_digit (xs : List Char) (c : Char) :
    decimalValue (xs ++ [c]) = decimalValue xs * 10 + (c.toNat - 48) := by
  simp [decimalValue, List.foldl_append]

theorem natDigitsAux_spec (fuel : Nat) :
    ∀ n : Nat, n < 10 ^ (fuel + 1) →
      (natDigitsAux (fuel + 1) n).all Char.isDigit = true ∧
      decimalValue (natDigitsAux (fuel + 1) n) = n ∧
      natDigitsAux (fuel + 1) n ≠ [] := by
  induction fuel with
  | zero =>
    intro n hn
    have hn10 : n < 10 := by simpa using hn
    have hd : (Char.ofNat (48 + n)).toNat = 48 + n :=
      toNat_char_ofNat (by omega)
    refine ⟨?_, ?_, ?_⟩
    · simp [natDigitsAux, hn10, List.all_cons, isDigit_iff_toNat, hd]
      omega
    · simp [natDigitsAux, hn10, decimalValue, hd]
    · simp [natDigitsAux, hn10]
  | succ fuel ih =>
    intro n hn
    by_cases hn10 : n < 10
    · have hd : (Char.ofNat (48 + n)).toNat = 48 + n :=
        toNat_char_ofNat (by omega)
      refine ⟨?_, ?_, ?_⟩
      · simp [natDigitsAux, hn10, List.all_cons, isDigit_iff_toNat, hd]
        omega
      · simp [natDigitsAux, hn10, decimalValue, hd]
      · simp [natDigitsAux, hn10]
    · have hdiv : n / 10 < 10 ^ (fuel + 1) := by
        rw [Nat.div_lt_iff_lt_mul (by norm_num)]
        calc n < 10 ^ (fuel + 1 + 1) := hn
        _ = 10 ^ (fuel + 1) * 10 := by ring
      obtain ⟨ihall, ihval, ihne⟩ := ih (n / 10) hdiv
      have hd : (Char.ofNat (48 + n % 10)).toNat = 48 + n % 10 :=
        toNat_char_ofNat (by omega)
      have hstep : natDigitsAux (fuel + 1 + 1) n =
          natDigitsAux (fuel + 1) (n / 10) ++ [Char.ofNat (48 + n % 10)] := by
        conv_lhs => rw [natDigitsAux]
        rw [if_neg hn10]
      refine ⟨?_, ?_, ?_⟩
      · rw [hstep, List.all_append, ihall]
        simp [isDigit_iff_toNat, hd]
        omega
      · rw [hstep, decimalValue_append_digit, ihval, hd]
        omega
      · rw [hstep]
        simp

theorem natDigits_spec (n : Nat) :
    (natDigits n).all Char.isDigit = true ∧
    decimalValue (natDigits n) = n ∧ natDigits n ≠ [] := by
  apply natDigitsAux_spec
  calc n < 2 ^ n := Nat.lt_two_pow n
  _ ≤ 2 ^ (n + 1) := Nat.pow_le_pow_right (by norm_num) (by omega)
  _ ≤ 10 ^ (n + 1) := Nat.pow_le_pow_left (by norm_num) _

/-! ### List-splitting helpers -/

theorem all_of_sublist {P : Char → Bool} {l1 l2 : List Char}
    (hs : List.Sublist l1 l2) (h : l2.all P = true) : l1.all P = true := by
  rw [List.all_eq_true] at h ⊢
  exact fun a ha => h a (hs.subset ha)

theorem takeWhile_append_eq {P : Char → Bool} {xs ys : List Char}
    (hxs : xs.all P = true)
    (hys : ∀ c, ys.head? = some c → P c = false) :
    (xs ++ ys).takeWhile P = xs := by
  induction xs with
  | nil =>
    cases ys with
    | nil => rfl
    | cons c t => simp [List.takeWhile_cons, hys c rfl]
  | cons a t ih =>
    rw [List.all_cons, Bool.and_eq_true] at hxs
    simp [List.takeWhile_cons, hxs.1, ih hxs.2]

theorem drop_append_eq {xs ys : List Char} :
    (xs ++ ys).drop xs.length = ys :=
  List.drop_left xs ys

theorem drop_takeWhile_length {P : Char → Bool} (l : List Char) :
    l.drop (l.takeWhile P).length = l.dropWhile P := by
  induction l with
  | nil => rfl
  | cons a t ih =>
    by_cases hp : P a
    · simp [List.takeWhile_cons, List.dropWhile_cons, hp, ih]
    · simp [List.takeWhile_cons, List.dropWhile_cons, hp]

theorem dropWhile_head_false {P : Char → Bool} {l : List Char} {c : Char}
    {rest : List Char} (h : l.dropWhile P = c :: rest) : P c = false := by
  induction l with
  | nil => simp at h
  | cons a t ih =>
    rw [List.dropWhile_cons] at h
    by_cases hp : P a
    · rw [if_pos hp] at h
      exact ih h
    · rw [if_neg hp] at h
      cases h
      simpa using hp

theorem takeWhile_head {P : Char → Bool} {l : List Char} {c : Char}
    {rest : List Char} (h : l.takeWhile P = c :: rest) :
    l.head? = some c ∧ P c = true := by
  cases l with
  | nil => simp at h
  | cons a t =>
    rw [List.takeWhile_cons] at h
    by_cases hp : P a
    · rw [if_pos hp] at h
      cases h
      exact ⟨rfl, hp⟩
    · rw [if_neg hp] at h
      cases h

theorem head?_append_cases {xs ys : List Char} {c : Char}
    (h : (xs ++ ys).head? = some c) :
    xs.head? = some c ∨ (xs = [] ∧ ys.head? = some c) := by
  cases xs with
  | nil => exact Or.inr ⟨rfl, h⟩
  | cons a t => simp_all

theorem drop_append_succ {xs ys : List Char} :
    (xs ++ ys).drop (xs.length + 1) = ys.drop 1 := by
  rw [← List.drop_drop, List.drop_left]

/-! ### Invariants of parsed URL records -/

/-- Structural invariants of every record `parse` produces. -/
structure Wf (r : URLRec) : Prop where
  host_lower : r.host.map Char.toLower = r.host
  host_ne : r.host ≠ []
  host_ok : r.host.all (fun c => !isForbiddenHost c) = true
  port_ok : ∀ p, r.port = some p →
    p ≤ 65535 ∧ p ≠ (if r.https then 443 else 80)
  path_ok : r.path = ['/'] ∨
    (r.path.head? = some '/' ∧ r.path.all (fun c => !isPathEnd c) = true)
  search_ok : r.search = [] ∨
    (r.search.head? = some '?' ∧
      r.search.all (fun c => c != '#') = true ∧ r.search ≠ ['?'])
  hash_ok : r.hash = [] ∨ (r.hash.head? = some '#' ∧ r.hash ≠ ['#'])

theorem map_toLower_idem (l : List Char) :
    (l.map Char.toLower).map Char.toLower = l.map Char.toLower := by
  rw [List.map_map]
  have hf : Char.toLower ∘ Char.toLower = Char.toLower := funext toLower_idem
  rw [hf]

/-- Everything `parse` returns satisfies `Wf` (and records the scheme it
was parsed under). -/
theorem parseAfterScheme_wf {b : Bool} {rest : List Char} {r : URLRec}
    (h : parseAfterScheme b rest = some r) : Wf r ∧ r.https = b := by
  simp only [parseAfterScheme] at h
  set A := rest.takeWhile (fun c => !isAuthorityEnd c) with hA
  set afterAuth := rest.drop A.length with hAA
  set HP := afterLastAt A with hHP
  set hostRaw := HP.takeWhile (fun c => decide (c ≠ ':')) with hHR
  set portPart := HP.drop (hostRaw.length + 1) with hPP
  set path0 := afterAuth.takeWhile (fun c => !isPathEnd c) with hP0
  set afterPath := afterAuth.drop path0.length with hAP
  set search0 := afterPath.takeWhile (fun c => decide (c ≠ '#')) with hS0
  set hash0 := afterPath.drop search0.length with hH0
  by_cases h1 : hostRaw = []
  · rw [if_pos h1] at h
    exact absurd h (by simp)
  · rw [if_neg h1] at h
    by_cases h2 : hostRaw.any isForbiddenHost = true
    · rw [if_pos h2] at h
      exact absurd h (by simp)
    · rw [if_neg h2] at h
      by_cases h3 : portPart.all Char.isDigit = true
      · rw [if_pos h3] at h
        by_cases h4 : 65535 < decimalValue portPart
        · rw [if_pos h4] at h
          exact absurd h (by simp)
        · rw [if_neg h4] at h
          rw [Option.some.injEq] at h
          subst h
          refine ⟨⟨?_, ?_, ?_, ?_, ?_, ?_, ?_⟩, rfl⟩
          · exact map_toLower_idem _
          · simpa using h1
          · rw [List.all_eq_true]
            intro a ha
            rw [List.mem_map] at ha
            obtain ⟨y, hy, rfl⟩ := ha
            have hyf : isForbiddenHost y = false := by
              by_contra hcon
              rw [Bool.not_eq_false] at hcon
              exact h2 (List.any_eq_true.mpr ⟨y, hy, hcon⟩)
            simp [isForbiddenHost_toLower, hyf]
          · intro p hp
            simp only at hp ⊢
            set dp := if b then (443 : Nat) else 80 with hdp
            split_ifs at hp with hp1 hp2
            rw [Option.some.injEq] at hp
            refine ⟨by omega, ?_⟩
            intro hcon
            rw [← hp] at hcon
            exact hp2 hcon
          · simp only
            split_ifs with hq1
            · exact Or.inl rfl
            · right
              obtain ⟨c, crest, hc⟩ := List.exists_cons_of_ne_nil hq1
              have hhead := takeWhile_head hc
              have hdw : afterAuth = rest.dropWhile (fun c => !isAuthorityEnd c) := by
                rw [hAA, hA, drop_takeWhile_length]
              rw [hdw] at hhead
              have hauth : isAuthorityEnd c = true := by
                cases hdd : rest.dropWhile (fun c => !isAuthorityEnd c) with
                | nil => rw [hdd] at hhead; simp at hhead
                | cons d t =>
                  rw [hdd] at hhead
                  have hd := dropWhile_head_false hdd
                  simp only [List.head?_cons, Option.some.injEq] at hhead
                  obtain ⟨hh1, _⟩ := hhead
                  subst hh1
                  simpa using hd
              have hpe : isPathEnd c = false := by simpa using hhead.2
              constructor
              · rw [hc]
                simp only [List.head?_cons, Option.some.injEq]
                simp only [isAuthorityEnd, Bool.or_eq_true,
                  decide_eq_true_eq] at hauth
                simp only [isPathEnd, Bool.or_eq_false_iff,
                  decide_eq_false_iff_not] at hpe
                rcases hauth with (hh | hh) | hh
                · exact hh
                · exact absurd hh hpe.1
                · exact absurd hh hpe.2
              · rw [List.all_eq_true]
                intro a ha
                rw [hP0] at ha
                have := List.mem_takeWhile_imp ha
                simpa using this
          · simp only
            split_ifs with hs1
            · exact Or.inl rfl
            · by_cases hs2 : search0 = []
              · exact Or.inl hs2
              · right
                obtain ⟨c, t, hc⟩ := List.exists_cons_of_ne_nil hs2
                have hc2 : afterPath.takeWhile (fun x => decide (x ≠ '#')) =
                    c :: t := by
                  rw [← hS0]
                  exact hc
                have hhead := takeWhile_head hc2
                have hne : (decide (c ≠ '#')) = true := hhead.2
                have hdw2 : afterPath =
                    afterAuth.dropWhile (fun c => !isPathEnd c) := by
                  rw [hAP, hP0, drop_takeWhile_length]
                rw [hdw2] at hhead
                have hq : c = '?' := by
                  cases hdd : afterAuth.dropWhile (fun c => !isPathEnd c) with
                  | nil => rw [hdd] at hhead; simp at hhead
                  | cons d t2 =>
                    rw [hdd] at hhead
                    have hd := dropWhile_head_false hdd
                    simp only [List.head?_cons, Option.some.injEq] at hhead
                    obtain ⟨hh1, _⟩ := hhead
                    subst hh1
                    have hpt : isPathEnd d = true := by simpa using hd
                    simp only [isPathEnd, Bool.or_eq_true,
                      decide_eq_true_eq] at hpt
                    rcases hpt with hh | hh
                    · exact hh
                    · subst hh; simp at hne
                refine ⟨?_, ?_, ?_⟩
                · rw [hc, hq]
                  rfl
                · rw [List.all_eq_true]
                  intro a ha
                  rw [hS0] at ha
                  have := List.mem_takeWhile_imp ha
                  simpa using this
                · exact hs1
          · simp only
            split_ifs with hh1
            · exact Or.inl rfl
            · by_cases hh2 : hash0 = []
              · exact Or.inl hh2
              · right
                obtain ⟨c, t, hc⟩ := List.exists_cons_of_ne_nil hh2
                have hc2 : afterPath.dropWhile (fun x => decide (x ≠ '#')) =
                    c :: t := by
                  rw [← drop_takeWhile_length, ← hS0, ← hH0]
                  exact hc
                have hd := dropWhile_head_false hc2
                have hcq : c = '#' := by simpa using hd
                refine ⟨?_, hh1⟩
                rw [hc, hcq]
                rfl
      · rw [if_neg h3] at h
        exact absurd h (by simp)


/-! ### Serialization facts and the reparse lemma -/

theorem takeWhile_append_all {P : Char → Bool} {xs : List Char}
    (ys : List Char) (hxs : xs.all P = true) :
    (xs ++ ys).takeWhile P = xs ++ ys.takeWhile P := by
  induction xs with
  | nil => rfl
  | cons a t ih =>
    rw [List.all_cons, Bool.and_eq_true] at hxs
    simp [List.takeWhile_cons, hxs.1, ih hxs.2]

theorem stripWww_sublist (l : List Char) :
    List.Sublist (stripWww l) l := by
  unfold stripWww
  split_ifs
  · exact List.drop_sublist 4 l
  · exact List.Sublist.refl l

theorem stripWww_map_lower {l : List Char}
    (h : l.map Char.toLower = l) :
    (stripWww l).map Char.toLower = stripWww l := by
  unfold stripWww
  split_ifs
  · rw [List.map_drop, h]
  · exact h

theorem adjustPath_sublist (p : List Char) :
    List.Sublist (adjustPath p) p := by
  unfold adjustPath
  split_ifs
  · exact List.nil_sublist p
  · exact List.dropLast_sublist p
  · exact List.Sublist.refl p

theorem any_eq_false_of_all_not {P : Char → Bool} {l : List Char}
    (h : l.all (fun c => !P c) = true) : l.any P = false := by
  rw [List.any_eq_false]
  intro a ha
  rw [List.all_eq_true] at h
  simpa using h a ha

/-- The head of `adjustPath p`, when non-empty, is the head of `p`. -/
theorem adjustPath_head {p : List Char} {d : Char} {t : List Char}
    (h : adjustPath p = d :: t) : p.head? = some d := by
  rcases p with _ | ⟨e, t2⟩
  · rw [show adjustPath [] = [] from rfl] at h
    cases h
  · rcases t2 with _ | ⟨f, t3⟩
    · unfold adjustPath at h
      split_ifs at h
      · rw [show [e].dropLast = ([] : List Char) from rfl] at h
        simp at h
      · injection h with h1 h2
        rw [List.head?_cons, h1]
    · unfold adjustPath at h
      split_ifs at h with h1 h2
      · rw [show (e :: f :: t3).dropLast = e :: (f :: t3).dropLast from rfl]
          at h
        injection h with h1 h2
        rw [List.head?_cons, h1]
      · injection h with h1 h2
        rw [List.head?_cons, h1]

/-- Reparsing the serialized body of a well-formed record under the
`https` scheme recovers its components (with the host already
`www`-stripped, and the path re-defaulted to `/` when it was emptied). -/
theorem parse_serialized (r : URLRec) (w : Wf r)
    (hne : stripWww r.host ≠ [])
    (hp443 : r.port ≠ some 443) :
    parseAfterScheme true
      ((stripWww r.host ++ serializePort r.port) ++
        (adjustPath r.path ++ (r.search ++ r.hash))) =
      some { https := true, host := stripWww r.host, port := r.port,
             path := if adjustPath r.path = [] then ['/']
                     else adjustPath r.path,
             search := r.search, hash := r.hash } := by
  have hl_all : (stripWww r.host).all (fun c => !isForbiddenHost c) = true :=
    all_of_sublist (stripWww_sublist _) w.host_ok
  have hl_lower : (stripWww r.host).map Char.toLower = stripWww r.host :=
    stripWww_map_lower w.host_lower
  have hl_char : ∀ c ∈ stripWww r.host, isForbiddenHost c = false := by
    intro c hc
    rw [List.all_eq_true] at hl_all
    simpa using hl_all c hc
  have hport_char : ∀ c ∈ serializePort r.port,
      isAuthorityEnd c = false ∧ ¬ c = ':' ∨ c = ':' := by
    intro c hc
    cases hpc : r.port with
    | none => rw [hpc] at hc; simp [serializePort] at hc
    | some p =>
      rw [hpc] at hc
      simp only [serializePort, List.mem_cons] at hc
      rcases hc with hc | hc
      · exact Or.inr hc
      · have hd := (natDigits_spec p).1
        rw [List.all_eq_true] at hd
        obtain ⟨he1, _, he3, _, _, _⟩ := isDigit_not_special (hd c hc)
        exact Or.inl ⟨he1, he3⟩
  have hport_noauth : ∀ c ∈ serializePort r.port,
      isAuthorityEnd c = false := by
    intro c hc
    rcases hport_char c hc with ⟨h1, _⟩ | h1
    · exact h1
    · rw [h1]
      decide
  have hport_noat : ∀ c ∈ serializePort r.port, ¬ c = '@' := by
    intro c hc
    cases hpc : r.port with
    | none => rw [hpc] at hc; simp [serializePort] at hc
    | some p =>
      rw [hpc] at hc
      simp only [serializePort, List.mem_cons] at hc
      rcases hc with hc | hc
      · rw [hc]; decide
      · have hd := (natDigits_spec p).1
        rw [List.all_eq_true] at hd
        exact (isDigit_not_special (hd c hc)).2.2.2.1
  have hsh_head : ∀ c, (r.search ++ r.hash).head? = some c →
      isPathEnd c = true := by
    intro c hc
    rcases head?_append_cases hc with hc1 | ⟨_, hc2⟩
    · rcases w.search_ok with hs | ⟨hs, _, _⟩
      · rw [hs] at hc1; simp at hc1
      · rw [hs, Option.some.injEq] at hc1
        rw [← hc1]
        decide
    · rcases w.hash_ok with hh | ⟨hh, _⟩
      · rw [hh] at hc2; simp at hc2
      · rw [hh, Option.some.injEq] at hc2
        rw [← hc2]
        decide
  have hys_head : ∀ c,
      (adjustPath r.path ++ (r.search ++ r.hash)).head? = some c →
      isAuthorityEnd c = true := by
    intro c hc
    rcases head?_append_cases hc with hc1 | ⟨_, hc2⟩
    · rcases hadj : adjustPath r.path with _ | ⟨d, t⟩
      · rw [hadj] at hc1; simp at hc1
      · rw [hadj, List.head?_cons, Option.some.injEq] at hc1
        have hdz := adjustPath_head hadj
        rcases w.path_ok with hp | ⟨hp, _⟩
        · rw [hp] at hadj
          have : adjustPath ['/'] = [] := by decide
          rw [this] at hadj
          cases hadj
        · rw [hp, Option.some.injEq] at hdz
          rw [← hc1, ← hdz]
          decide
    · have := hsh_head c hc2
      simp only [isPathEnd, Bool.or_eq_true, decide_eq_true_eq] at this
      simp only [isAuthorityEnd, Bool.or_eq_true, decide_eq_true_eq]
      tauto
  have hpall : (adjustPath r.path).all (fun c => !isPathEnd c) = true := by
    rcases w.path_ok with hp | ⟨_, hall⟩
    · apply all_of_sublist (adjustPath_sublist _)
      rw [hp]
      decide
    · exact all_of_sublist (adjustPath_sublist _) hall
  have hsall : r.search.all (fun c => decide (c ≠ '#')) = true := by
    rcases w.search_ok with hs | ⟨_, hall, _⟩
    · rw [hs]; rfl
    · rw [List.all_eq_true] at hall ⊢
      intro a ha
      have := hall a ha
      simpa using this
  have hsearch_ne : ¬ r.search = ['?'] := by
    rcases w.search_ok with hs | ⟨_, _, hs⟩
    · rw [hs]; simp
    · exact hs
  have hhash_ne : ¬ r.hash = ['#'] := by
    rcases w.hash_ok with hh | ⟨_, hh⟩
    · rw [hh]; simp
    · exact hh
  have e1 : ((stripWww r.host ++ serializePort r.port) ++
        (adjustPath r.path ++ (r.search ++ r.hash))).takeWhile
        (fun c => !isAuthorityEnd c) =
      stripWww r.host ++ serializePort r.port := by
    apply takeWhile_append_eq
    · rw [List.all_append, Bool.and_eq_true]
      constructor
      · rw [List.all_eq_true]
        intro a ha
        have := (not_forbidden_not_special (hl_char a ha)).1
        simp [this]
      · rw [List.all_eq_true]
        intro a ha
        have := hport_noauth a ha
        simp [this]
    · intro c hc
      have := hys_head c hc
      simp [this]
  have e2 : ((stripWww r.host ++ serializePort r.port) ++
        (adjustPath r.path ++ (r.search ++ r.hash))).drop
        (stripWww r.host ++ serializePort r.port).length =
      adjustPath r.path ++ (r.search ++ r.hash) := drop_append_eq
  have e3 : afterLastAt (stripWww r.host ++ serializePort r.port) =
      stripWww r.host ++ serializePort r.port := by
    have hmem : ¬ '@' ∈ stripWww r.host ++ serializePort r.port := by
      intro hm
      rcases List.mem_append.mp hm with hm | hm
      · exact (not_forbidden_not_special (hl_char _ hm)).2.2.2.1 rfl
      · exact hport_noat _ hm rfl
    unfold afterLastAt
    rw [if_neg]
    simpa using hmem
  have e4 : (stripWww r.host ++ serializePort r.port).takeWhile
        (fun c => decide (c ≠ ':')) = stripWww r.host := by
    apply takeWhile_append_eq
    · rw [List.all_eq_true]
      intro a ha
      have := (not_forbidden_not_special (hl_char a ha)).2.2.1
      simpa using this
    · intro c hc
      cases hpc : r.port with
      | none => rw [hpc] at hc; simp [serializePort] at hc
      | some p =>
        rw [hpc] at hc
        simp only [serializePort, List.head?_cons, Option.some.injEq] at hc
        rw [← hc]
        decide
  have e5 : (stripWww r.host ++ serializePort r.port).drop
        ((stripWww r.host).length + 1) =
      (serializePort r.port).drop 1 := drop_append_succ
  have e6 : (adjustPath r.path ++ (r.search ++ r.hash)).takeWhile
        (fun c => !isPathEnd c) = adjustPath r.path := by
    apply takeWhile_append_eq
    · exact hpall
    · intro c hc
      have := hsh_head c hc
      simp [this]
  have e7 : (adjustPath r.path ++ (r.search ++ r.hash)).drop
        (adjustPath r.path).length = r.search ++ r.hash := drop_append_eq
  have e8 : (r.search ++ r.hash).takeWhile (fun c => decide (c ≠ '#')) =
      r.search := by
    apply takeWhile_append_eq
    · exact hsall
    · intro c hc
      rcases w.hash_ok with hh | ⟨hh, _⟩
      · rw [hh] at hc; simp at hc
      · rw [hh, Option.some.injEq] at hc
        rw [← hc]
        decide
  have e9 : (r.search ++ r.hash).drop r.search.length = r.hash :=
    drop_append_eq
  have hany : (stripWww r.host).any isForbiddenHost = false :=
    any_eq_false_of_all_not hl_all
  simp only [parseAfterScheme]
  rw [e1, e2, e3, e4, e5, e6, e7, e8, e9, hl_lower]
  rw [if_neg hne]
  rw [if_neg (by simp [hany])]
  rw [if_neg hsearch_ne]
  rw [if_neg hhash_ne]
  cases hpc : r.port with
  | none =>
    simp only [serializePort, List.drop_nil]
    simp [decimalValue]
  | some p =>
    obtain ⟨hdig, hval, hnd⟩ := natDigits_spec p
    have hple := (w.port_ok p hpc).1
    have hpne : ¬ p = 443 := by
      intro hcon
      exact hp443 (by rw [hpc, hcon])
    simp only [serializePort]
    rw [show (':' :: natDigits p).drop 1 = natDigits p from rfl]
    rw [if_pos hdig]
    rw [hval]
    rw [if_neg (by omega)]
    rw [if_neg hnd]
    rw [show (if True then (443 : Nat) else 80) = 443 from rfl]
    rw [if_neg hpne]

/-! ### Scheme stripping, trimming, and the idempotence theorem pieces -/

/-- The serialized body `normalize` emits in the parse-success branch
(after the scheme has been stripped). -/
def serializedBody (r : URLRec) : List Char :=
  stripWww r.host ++ (serializePort r.port ++
    (adjustPath r.path ++ (r.search ++ r.hash)))

theorem stripScheme_https (X : List Char) :
    stripScheme (httpsPrefix ++ X) = X := by
  unfold stripScheme
  rw [if_pos (List.isPrefixOf_iff_prefix.mpr (List.prefix_append _ _))]
  rw [show (8 : Nat) = httpsPrefix.length from rfl, drop_append_eq]

theorem not_https_prefix_of_http (X : List Char) :
    ¬ httpsPrefix.isPrefixOf (httpPrefix ++ X) = true := by
  rw [List.isPrefixOf_iff_prefix]
  rintro ⟨t, ht⟩
  have hl : (httpsPrefix ++ t)[4]? = some 's' := by
    rw [List.getElem?_append, if_pos (by decide)]
    rfl
  have hr : (httpPrefix ++ X)[4]? = some ':' := by
    rw [List.getElem?_append, if_pos (by decide)]
    rfl
  rw [ht] at hl
  rw [hl] at hr
  simp at hr

theorem stripScheme_http (X : List Char) :
    stripScheme (httpPrefix ++ X) = X := by
  unfold stripScheme
  rw [if_neg (not_https_prefix_of_http X)]
  rw [if_pos (List.isPrefixOf_iff_prefix.mpr (List.prefix_append _ _))]
  rw [show (7 : Nat) = httpPrefix.length from rfl, drop_append_eq]

theorem withDefaultScheme_https (v : List Char) :
    withDefaultScheme (httpsPrefix ++ v) = httpsPrefix ++ v := by
  unfold withDefaultScheme hasSchemePrefix
  rw [if_pos]
  rw [Bool.or_eq_true]
  exact Or.inl (List.isPrefixOf_iff_prefix.mpr (List.prefix_append _ _))

theorem parse_https (v : List Char) :
    parse (httpsPrefix ++ v) = parseAfterScheme true v := by
  unfold parse
  rw [if_pos (List.isPrefixOf_iff_prefix.mpr (List.prefix_append _ _))]
  rw [show (8 : Nat) = httpsPrefix.length from rfl, drop_append_eq]

theorem trim_append_https {v : List Char} (hv : v ≠ [])
    (hlast : ((v.getLast?).all (fun c => !isJsSpace c)) = true) :
    trim (httpsPrefix ++ v) = httpsPrefix ++ v := by
  unfold trim
  have hfront : (httpsPrefix ++ v).dropWhile isJsSpace =
      httpsPrefix ++ v := by
    rw [show httpsPrefix ++ v = 'h' :: ("ttps://".data ++ v) from rfl]
    rw [List.dropWhile_cons, if_neg (by decide)]
  rw [hfront]
  have hrne : v.reverse ≠ [] := by simpa using hv
  obtain ⟨c, t, hc⟩ := List.exists_cons_of_ne_nil hrne
  have hlastc : v.getLast? = some c := by
    rw [← List.head?_reverse, hc]
    rfl
  rw [hlastc] at hlast
  have hcs : isJsSpace c = false := by
    simpa using hlast
  rw [List.reverse_append, hc]
  rw [show (c :: t) ++ httpsPrefix.reverse =
    c :: (t ++ httpsPrefix.reverse) from rfl]
  rw [List.dropWhile_cons, if_neg (by simp [hcs])]
  rw [show c :: (t ++ httpsPrefix.reverse) =
    (c :: t) ++ httpsPrefix.reverse from rfl]
  rw [← hc, ← List.reverse_append, List.reverse_reverse]

theorem parse_wf {s : List Char} {r : URLRec} (h : parse s = some r) :
    Wf r := by
  unfold parse at h
  split_ifs at h
  · exact (parseAfterScheme_wf h).1
  · exact (parseAfterScheme_wf h).1

/-- In the parse-success branch `normalize` returns the serialized body
of the parsed record. -/
theorem normalize_of_parse {u : List Char} {r : URLRec}
    (hp : parse (withDefaultScheme (trim u)) = some r) :
    normalize u = serializedBody r := by
  have w := parse_wf hp
  unfold normalize
  rw [hp]
  change stripScheme ((if r.https = true then "https:".data
    else "http:".data) ++ "//".data ++
    stripWww (List.map Char.toLower r.host) ++ serializePort r.port ++
    adjustPath r.path ++ r.search ++ r.hash) = serializedBody r
  rw [w.host_lower]
  cases hb : r.https
  · rw [show (if false = true then "https:".data else "http:".data) =
      "http:".data from rfl]
    unfold serializedBody
    simp only [List.append_assoc]
    exact stripScheme_http _
  · rw [show (if true = true then "https:".data else "http:".data) =
      "https:".data from rfl]
    unfold serializedBody
    simp only [List.append_assoc]
    exact stripScheme_https _

theorem serializedBody_ne_nil {r : URLRec}
    (hne : stripWww r.host ≠ []) : serializedBody r ≠ [] := by
  unfold serializedBody
  intro hcon
  exact hne (List.append_eq_nil.mp hcon).1

theorem stripWww_idem_of_not_www {l : List Char}
    (h : "www.".data.isPrefixOf (stripWww l) = false) :
    stripWww (stripWww l) = stripWww l := by
  conv_lhs => rw [stripWww]
  rw [if_neg (by simp [h])]

theorem adjustPath_of_ok {q : List Char}
    (h2 : ¬ q.getLast? = some '/') : adjustPath q = q := by
  unfold adjustPath
  rw [if_neg, if_neg]
  · simp [h2]
  · intro hcon
    apply h2
    rw [hcon]
    rfl

theorem adjustPath_redefault {p : List Char}
    (hsl : ¬ (adjustPath p).getLast? = some '/') :
    adjustPath (if adjustPath p = [] then ['/'] else adjustPath p) =
      adjustPath p := by
  split_ifs with hq
  · rw [hq]
    decide
  · exact adjustPath_of_ok hsl


/-- The core of the amended idempotence claim: for a URL whose
scheme-defaulted trim parses, re-canonicalizing the canonical form is the
identity, provided the `www`-stripped host is non-empty and not itself
`www.`-prefixed, the port is not an explicit 443, the adjusted path does
not still end in `/`, and the normalized form has no trailing
whitespace. -/
theorem canonical_idempotent_core (u : List Char) (r : URLRec)
    (hp : parse (withDefaultScheme (trim u)) = some r)
    (hne : stripWww r.host ≠ [])
    (hww : "www.".data.isPrefixOf (stripWww r.host) = false)
    (hp443 : r.port ≠ some 443)
    (hsl : ¬ (adjustPath r.path).getLast? = some '/')
    (hws : (((normalize u).getLast?).all (fun c => !isJsSpace c)) = true) :
    getCanonicalUrl (getCanonicalUrl u) = getCanonicalUrl u := by
  have w := parse_wf hp
  have hnorm : normalize u = serializedBody r := normalize_of_parse hp
  have hvne : serializedBody r ≠ [] := serializedBody_ne_nil hne
  unfold getCanonicalUrl
  rw [hnorm]
  congr 1
  unfold normalize
  rw [trim_append_https hvne (by rw [← hnorm]; exact hws)]
  rw [withDefaultScheme_https]
  rw [parse_https]
  rw [show serializedBody r =
    (stripWww r.host ++ serializePort r.port) ++
      (adjustPath r.path ++ (r.search ++ r.hash)) from by
    unfold serializedBody
    rw [← List.append_assoc]]
  rw [parse_serialized r w hne hp443]
  change stripScheme ("https:".data ++ "//".data ++
    stripWww (List.map Char.toLower (stripWww r.host)) ++
    serializePort r.port ++
    adjustPath (if adjustPath r.path = [] then ['/']
      else adjustPath r.path) ++
    r.search ++ r.hash) =
    (stripWww r.host ++ serializePort r.port) ++
      (adjustPath r.path ++ (r.search ++ r.hash))
  rw [stripWww_map_lower w.host_lower]
  rw [stripWww_idem_of_not_www hww]
  rw [adjustPath_redefault hsl]
  rw [show ("https:".data ++ "//".data : List Char) = httpsPrefix from rfl]
  simp only [List.append_assoc]
  rw [stripScheme_https]

end UrlNormalizer

/-- C3 counterexample: canonicalization is not idempotent on the code —
`canonical("www.www.example.com") = "https://www.example.com"` (only a
single leading `www.` is stripped per pass), and canonicalizing again
strips another `www.`, giving `"https://example.com"`. -/
theorem claim3_counterexample :
    UrlNormalizer.getCanonicalUrl
        (UrlNormalizer.getCanonicalUrl "www.www.example.com".data) ≠
      UrlNormalizer.getCanonicalUrl "www.www.example.com".data := by
  decide

/-- C3 (amended): `canonical(canonical(u)) = canonical(u)` for every URL
`u` whose scheme-defaulted trim parses, except in the edge families the
code genuinely re-normalizes on the second pass: a host whose
`www`-stripped form is empty or still starts with `www.` (another strip
happens), a path whose adjusted form still ends in `/` (another slash is
dropped), an explicit port 443 (elided when reparsed as `https`), and a
normalized form with trailing whitespace (trimmed on the second pass). -/
theorem claim3_canonical_idempotent (u : List Char)
    (r : UrlNormalizer.URLRec)
    (hp : UrlNormalizer.parse
      (UrlNormalizer.withDefaultScheme (UrlNormalizer.trim u)) = some r)
    (hne : UrlNormalizer.stripWww r.host ≠ [])
    (hww : "www.".data.isPrefixOf (UrlNormalizer.stripWww r.host) = false)
    (hp443 : r.port ≠ some 443)
    (hsl : ¬ (UrlNormalizer.adjustPath r.path).getLast? = some '/')
    (hws : (((UrlNormalizer.normalize u).getLast?).all
      (fun c => !UrlNormalizer.isJsSpace c)) = true) :
    UrlNormalizer.getCanonicalUrl (UrlNormalizer.getCanonicalUrl u) =
      UrlNormalizer.getCanonicalUrl u :=
  UrlNormalizer.canonical_idempotent_core u r hp hne hww hp443 hsl hws

/-- Witness for C3's amended theorem at a mixed-case URL with path,
query and fragment. -/
theorem claim3_witness :
    UrlNormalizer.getCanonicalUrl
        (UrlNormalizer.getCanonicalUrl "www.Example.com/Path/?Q=1#Frag".data) =
      UrlNormalizer.getCanonicalUrl "www.Example.com/Path/?Q=1#Frag".data :=
  claim3_canonical_idempotent "www.Example.com/Path/?Q=1#Frag".data
    { https := true, host := "www.example.com".data, port := none,
      path := "/Path/".data, search := "?Q=1".data, hash := "#Frag".data }
    (by decide) (by decide) (by decide) (by decide) (by decide) (by decide)

/-- Witness for C9's amended theorem: the redirect-dedup resubmission. -/
theorem claim9_witness :
    (UrlContentService.skipEntry 60 "www.ynet.co.il"
      { id := "66f0a1b2c3d4e5f6a7b8c9d0", url := "https://ynet.co.il",
        status := FetchStatus.SUCCESS, fetchedAt := some 1700000000000,
        redirectChain := ["https://ynet.co.il", "https://www.ynet.co.il"] }).reason =
      "Successfully scraped within 60 minutes" :=
  (claim9_skip_reason 60 "www.ynet.co.il" _ 1700000000000 rfl rfl).1
    (by decide)

end UrlContentProvider
